import Mathlib

/-!
# Verification of the sanskrit-ocr progress/orchestration core

Shallow embedding of `src/main.rs` of the `sanskrit-ocr` repository:
the upload pipeline (`upload`, `process_with_tesseract`) is modelled as a
pure function from an environment describing the outcomes of the external
tools (pdftoppm page conversion, per-page tesseract invocations, wall-clock
durations) to the trace of events the pipeline performs — writes to the
session progress store, tesseract invocations, console-logged estimates —
together with the `OcrResult` it returns.  The PDF splitter (`split_pdf`)
chunk computation is modelled as a pure function on page counts and sizes.

Machine floats (`f64`) of the source are modelled by `ℚ`; the claims settled
here only involve exact arithmetic on small values where `f64` is exact.
Rust string helpers (`to_lowercase`, `ends_with`, `trim`) are modelled by
explicit, kernel-evaluable char-list functions (`strLower`, `strEndsWith`,
`rustTrim`) restricted to the ASCII behaviour the claims exercise.
-/

namespace SanskritOcr

/-- `OcrResult` of `src/main.rs` (lines 25–34); `estimated_time_seconds: f64`
is modelled by `ℚ`. -/
structure OcrResult where
  filename : String
  text : String
  success : Bool
  error : Option String
  pages_processed : Option Nat
  total_pages : Option Nat
  estimated_time_seconds : Option ℚ
deriving DecidableEq, Repr

/-- `ProgressStatus` of `src/main.rs` (lines 15–23). -/
structure ProgressStatus where
  stage : String
  current : Nat
  total : Nat
  message : String
  complete : Bool
  results : List OcrResult
deriving DecidableEq, Repr

/-- Outcome of the `pdftoppm` conversion step (lines 185–271): the command
itself may fail to execute (`Err(e)`), exit non-zero (with stderr), or run,
after which the page-probing loop discovers a (possibly empty) list of page
image paths. -/
inductive ConvertOutcome where
  | execError (e : String)
  | toolFailure (stderr : String)
  | converted (pages : List String)
deriving DecidableEq, Repr

/-- Outcome of the single-image tesseract branch (lines 406–476): execute
failure, non-zero exit, output file unreadable, or extracted text. -/
inductive SingleOutcome where
  | execError (e : String)
  | toolFailure (stderr : String)
  | readError (e : String)
  | ok (text : String)
deriving DecidableEq, Repr

/-- Environment for processing one uploaded file: its (original) filename and
the outcomes of every external-tool interaction the pipeline may perform.
`pageText idx` is the text tesseract yields for 0-based page `idx` of a
converted PDF (`none` = command error / non-zero exit / unreadable output,
which the source all handles by skipping the page); `pageDur idx` the
wall-clock seconds that invocation takes. -/
structure FileEnv where
  filename : String
  convert : ConvertOutcome
  pageText : Nat → Option String
  pageDur : Nat → ℚ
  single : SingleOutcome
  singleDur : ℚ

/-- One observable step of the pipeline: a write of a snapshot to the session
progress store (`tracker.write().insert(session_id, …)`), a tesseract
invocation for a 0-based page index, or a console-only `println!` of the
estimated total time. -/
inductive Event where
  | write (s : ProgressStatus)
  | invokeTesseract (idx : Nat)
  | logEstimate (est : ℚ)
deriving DecidableEq, Repr

def writeOf : Event → Option ProgressStatus
  | .write s => some s
  | _ => none

def isInvoke : Event → Bool
  | .invokeTesseract _ => true
  | _ => false

/-- Is this event the console-only `println!` of the estimated total time? -/
def isLogEstimate : Event → Bool
  | .logEstimate _ => true
  | _ => false

/- ---------- string helpers modelling Rust string methods ---------- -/

/-- ASCII lower-casing of one character (models `char::to_lowercase` on the
ASCII range actually exercised by extensions). -/
def asciiLower (c : Char) : Char :=
  if 'A' ≤ c ∧ c ≤ 'Z' then Char.ofNat (c.toNat + 32) else c

/-- Models Rust `str::to_lowercase` (ASCII range). -/
def strLower (s : String) : String := ⟨s.data.map asciiLower⟩

/-- Models Rust `str::ends_with`. -/
def strEndsWith (s suf : String) : Bool := List.isSuffixOf suf.data s.data

/-- Whitespace as trimmed by `str::trim` (ASCII subset). -/
def isWs (c : Char) : Bool := c = ' ' || c = '\n' || c = '\t' || c = '\r'

/-- Models Rust `str::trim`. -/
def rustTrim (s : String) : String :=
  ⟨((s.data.dropWhile isWs).reverse.dropWhile isWs).reverse⟩

def charsHas (needle : List Char) : List Char → Bool
  | [] => needle.isEmpty
  | c :: rest => List.isPrefixOf needle (c :: rest) || charsHas needle rest

/-- `strHas hay needle`: `needle` occurs as a contiguous substring of
`hay` (models Rust `str::contains`). -/
def strHas (hay needle : String) : Bool := charsHas needle.data hay.data

/- ---------- upload validation and file kind (lines 84–103, 157–162) ---------- -/

/-- Extension validation of `upload` (lines 91–94). -/
def isValidUpload (filename : String) : Bool :=
  strEndsWith (strLower filename) ".pdf" || strEndsWith (strLower filename) ".png" ||
    strEndsWith (strLower filename) ".jpg" || strEndsWith (strLower filename) ".jpeg"

/-- The extension under which the upload is saved:
`filename.split('.').last().unwrap_or("tmp")` (line 102).  `split('.')` always
yields at least one piece (the `"tmp"` default is unreachable), and its last
piece is the suffix after the last `'.'` (the whole string when there is no
dot), computed here directly on the char list. -/
def extOf (filename : String) : String :=
  ⟨(filename.data.reverse.takeWhile (fun c => c ≠ '.')).reverse⟩

/-- The PDF test of `process_with_tesseract` (lines 158–162): the temp file is
saved as `ocr_<uuid>.<extOf filename>`, and the branch checks that the temp
path's extension lower-cases to `"pdf"`. -/
def isPdfFile (filename : String) : Bool := strLower (extOf filename) = "pdf"

/- ---------- progress snapshots written by the pipeline ---------- -/

/-- A single-quote character, used in the `format!` messages. -/
def sq : String := (Char.ofNat 39).toString

/-- Snapshot written when PDF conversion starts (lines 167–177). -/
def convertingStatus (filename : String) : ProgressStatus :=
  { stage := "Converting PDF", current := 0, total := 0,
    message := "Converting PDF " ++ sq ++ filename ++ sq ++ "...",
    complete := false, results := [] }

/-- Snapshot written once conversion discovered `n ≥ 1` pages (lines 228–238). -/
def convertedStatus (n : Nat) : ProgressStatus :=
  { stage := "PDF Converted", current := n, total := n,
    message := "Converted " ++ toString n ++ " pages, starting OCR...",
    complete := false, results := [] }

/-- Snapshot written at the top of each page iteration, 1-based page `i` of
`n` (lines 294–304). -/
def ocrStatus (i n : Nat) : ProgressStatus :=
  { stage := "OCR Processing", current := i, total := n,
    message := "Processing page " ++ toString i ++ "/" ++ toString n,
    complete := false, results := [] }

/-- Terminal snapshot written by the spawned upload task (lines 131–141). -/
def completeStatus (results : List OcrResult) : ProgressStatus :=
  { stage := "Complete", current := results.length, total := results.length,
    message := "Processing complete", complete := true, results := results }

/-- Page label pushed in front of a page's text (line 350). -/
def pageMarker (i : Nat) : String := "\n━━━ Page " ++ toString i ++ " ━━━\n"

/- ---------- the per-page OCR loop (lines 290–373) ---------- -/

/-- `all_text` after page `idx`'s tesseract outcome is handled (lines
344–360): on success with text whose trim is non-empty, the page marker and
the raw text are appended; otherwise (failure, unreadable output, or
whitespace-only text) `all_text` is unchanged. -/
def accNext (env : FileEnv) (idx : Nat) (acc : String) : String :=
  match env.pageText idx with
  | some t => if rustTrim t ≠ "" then acc ++ pageMarker (idx + 1) ++ t else acc
  | none => acc

/-- The `for (idx, page_path) in pages.iter().enumerate()` loop, structurally
recursing on the number `r` of remaining pages (`idx` is the current 0-based
index, so the loop body runs for `idx, idx+1, …, idx+r-1`).  State threaded
through the loop: `est` (`estimated_time`), `elapsed` (the value of
`start_time.elapsed()` modelled as the accumulated durations of the tesseract
invocations performed so far), `acc` (`all_text`).  Returns the events the
loop performs, the final `all_text`, and the final elapsed time. -/
def ocrLoop (env : FileEnv) (n : Nat) :
    Nat → Nat → Option ℚ → ℚ → String → List Event × String × ℚ
  | 0, _, _, elapsed, acc => ([], acc, elapsed)
  | r + 1, idx, est, elapsed, acc =>
    let progressEv : List Event := [Event.write (ocrStatus (idx + 1) n)]
    let estStep : List Event × Option ℚ :=
      if idx = 1 ∧ est = none then
        ([Event.logEstimate (elapsed * (n : ℚ))], some (elapsed * (n : ℚ)))
      else ([], est)
    let invokeEv : List Event := [Event.invokeTesseract idx]
    let rest := ocrLoop env n r (idx + 1) estStep.2 (elapsed + env.pageDur idx) (accNext env idx acc)
    (progressEv ++ estStep.1 ++ invokeEv ++ rest.1, rest.2)

/-- Result of the single-image branch (lines 398–477). -/
def singleImageResult (env : FileEnv) : OcrResult :=
  match env.single with
  | .ok text =>
    { filename := env.filename, text := rustTrim text, success := true, error := none,
      pages_processed := some 1, total_pages := some 1,
      estimated_time_seconds := some env.singleDur }
  | .readError e =>
    { filename := env.filename, text := "", success := false,
      error := some ("Failed to read OCR output: " ++ e),
      pages_processed := none, total_pages := none, estimated_time_seconds := none }
  | .toolFailure stderr =>
    { filename := env.filename, text := "", success := false,
      error := some ("Tesseract error: " ++ stderr),
      pages_processed := none, total_pages := none, estimated_time_seconds := none }
  | .execError e =>
    { filename := env.filename, text := "", success := false,
      error := some ("Failed to execute tesseract: " ++ e ++ ". Make sure tesseract is installed."),
      pages_processed := none, total_pages := none, estimated_time_seconds := none }

/-- `process_with_tesseract` (lines 151–478): the events it performs and the
`OcrResult` it returns, as a function of the tool-outcome environment. -/
def processFile (env : FileEnv) : List Event × OcrResult :=
  if isPdfFile env.filename then
    let ev0 : List Event := [Event.write (convertingStatus env.filename)]
    match env.convert with
    | .execError e =>
      (ev0,
       { filename := env.filename, text := "", success := false,
         error := some ("Failed to execute pdftoppm: " ++ e ++ ". Install poppler-utils package."),
         pages_processed := none, total_pages := none, estimated_time_seconds := none })
    | .toolFailure stderr =>
      (ev0,
       { filename := env.filename, text := "", success := false,
         error := some ("PDF conversion error: " ++ stderr ++ ". Make sure poppler-utils is installed."),
         pages_processed := none, total_pages := none, estimated_time_seconds := none })
    | .converted pages =>
      if pages.isEmpty then
        (ev0,
         { filename := env.filename, text := "", success := false,
           error := some "PDF conversion failed: no output files created",
           pages_processed := none, total_pages := none, estimated_time_seconds := none })
      else
        let n := pages.length
        let out := ocrLoop env n n 0 none 0 ""
        (ev0 ++ [Event.write (convertedStatus n)] ++ out.1,
         { filename := env.filename, text := rustTrim out.2.1, success := true, error := none,
           pages_processed := some n, total_pages := some n,
           estimated_time_seconds := some out.2.2 })
  else
    ([Event.invokeTesseract 0], singleImageResult env)

/- ---------- the spawned upload task (lines 119–142) ---------- -/

/-- The body of the `tokio::spawn`ed task: process the saved files in the
order received, collecting events and one `OcrResult` per file. -/
def sessionRun (files : List FileEnv) : List Event × List OcrResult :=
  files.foldl
    (fun acc f =>
      let out := processFile f
      (acc.1 ++ out.1, acc.2 ++ [out.2]))
    ([], [])

/-- The multipart parts that pass extension validation (lines 91–98), in the
order received. -/
def validFiles (parts : List FileEnv) : List FileEnv :=
  parts.filter (fun f => isValidUpload f.filename)

/-- All events performed for one upload session: the background task processes
the validated files and finally installs the terminal `Complete` snapshot
(lines 131–141), after which the task exits — the session id is a fresh UUID,
so no other task ever writes to it. -/
def uploadEvents (parts : List FileEnv) : List Event :=
  let run := sessionRun (validFiles parts)
  run.1 ++ [Event.write (completeStatus run.2)]

/-- The sequence of snapshots written to the progress store for one session,
in write order. -/
def uploadWrites (parts : List FileEnv) : List ProgressStatus :=
  (uploadEvents parts).filterMap writeOf

/-- The ordered `results` published by the session's terminal snapshot. -/
def uploadResults (parts : List FileEnv) : List OcrResult :=
  (sessionRun (validFiles parts)).2

/- ---------- the PDF splitter (lines 480–648) ---------- -/

/-- `estimated_kb_per_page` (line 582). -/
def estimatedKBPerPage (fileSizeKB totalPages : Nat) : ℚ :=
  max ((fileSizeKB : ℚ) / (totalPages : ℚ)) 1

/-- `pages_per_chunk` (lines 583–585):
`((500.0 / estimated_kb_per_page).floor() as usize).max(1).min(total_pages)`
(`.floor() as usize` on the non-negative quotient is `⌊·⌋.toNat`). -/
def pagesPerChunk (fileSizeKB totalPages : Nat) : Nat :=
  min (max (⌊500 / estimatedKBPerPage fileSizeKB totalPages⌋.toNat) 1) totalPages

/-- The `while current_page <= total_pages` chunking loop (lines 594–637),
with structural fuel.  Each iteration emits the 1-indexed inclusive page
range `(current, min (current + ppc - 1) totalPages)` and continues from the
page after the range's end.  With `1 ≤ ppc` every iteration advances
`current` by at least one page, so `fuel = totalPages` (as used by
`splitRanges`) never runs out before the loop guard fails. -/
def splitLoop (totalPages ppc : Nat) : Nat → Nat → List (Nat × Nat)
  | 0, _ => []
  | fuel + 1, current =>
    if current ≤ totalPages then
      let endPage := min (current + ppc - 1) totalPages
      (current, endPage) :: splitLoop totalPages ppc fuel (endPage + 1)
    else []

/-- All page ranges the splitter attempts to materialize, in order. -/
def splitRanges (totalPages ppc : Nat) : List (Nat × Nat) :=
  splitLoop totalPages ppc totalPages 1

/-- The ranges whose chunk materialization succeeded (lines 618–633): a chunk
is pushed onto `chunks` only when `pdftk … cat` exits successfully *and* the
chunk file's metadata is readable; failed chunks are logged and omitted. -/
def splitChunks (totalPages ppc : Nat) (ok : Nat × Nat → Bool) : List (Nat × Nat) :=
  (splitRanges totalPages ppc).filter ok

/-- Number of pages covered by an inclusive 1-indexed range. -/
def rangeLen (p : Nat × Nat) : Nat := p.2 + 1 - p.1

/- ---------- derived observers used by the claims ---------- -/

/-- The snapshots a file's processing writes to the store, in order. -/
def fileWrites (env : FileEnv) : List ProgressStatus :=
  ((processFile env).1).filterMap writeOf

/-- Page count the PDF branch ends up recognizing (0 when conversion fails or
discovers no pages). -/
def pdfPages (env : FileEnv) : Nat :=
  match env.convert with
  | .converted pages => if pages.isEmpty then 0 else pages.length
  | _ => 0

/-- Is this event a progress-store write in the `"OCR Processing"` stage? -/
def isOcrWrite : Event → Bool
  | .write s => s.stage = "OCR Processing"
  | _ => false

/-- The 0-based page indices of the tesseract invocations in an event trace,
in order. -/
def invokesOf (evs : List Event) : List Nat :=
  evs.filterMap fun e =>
    match e with
    | .invokeTesseract i => some i
    | _ => none

/-- The `current` counters of the `"OCR Processing"` writes in an event trace,
in order. -/
def ocrCurrents (evs : List Event) : List Nat :=
  evs.filterMap fun e =>
    match e with
    | .write s => if s.stage = "OCR Processing" then some s.current else none
    | _ => none

/-- `coveredInvokes b evs = true` iff, walking `evs` with `b` unmatched
`"OCR Processing"` writes already seen, every tesseract invocation is preceded
by a strictly larger number of `"OCR Processing"` writes — i.e. every prefix
of the trace holds at least as many progress writes as invocations. -/
def coveredInvokes : Nat → List Event → Bool
  | _, [] => true
  | b, e :: rest =>
    if isInvoke e then decide (0 < b) && coveredInvokes (b - 1) rest
    else if isOcrWrite e then coveredInvokes (b + 1) rest
    else coveredInvokes b rest

/-- `true` when page `i`'s recognition yields nothing the loop would append:
the invocation failed outright, or its text trims to the empty string. -/
def pageYieldsNothing (env : FileEnv) (i : Nat) : Bool :=
  match env.pageText i with
  | some t => rustTrim t == ""
  | none => true

/-- Replace a file environment's page durations (the progress-store writes of
the pipeline will be shown not to depend on them, except for the elapsed-time
fields of the terminal snapshot's results). -/
def withDur (f : FileEnv) (d : Nat → ℚ) : FileEnv := { f with pageDur := d }

/-- Total wall-clock time of the `n` tesseract invocations of a converted PDF. -/
def totalDur (env : FileEnv) (n : Nat) : ℚ := ((List.range n).map env.pageDur).sum

/-- Relation between consecutive store snapshots: whenever the stage label is
unchanged, the `current` counter must not decrease. -/
def stageMono (s t : ProgressStatus) : Prop := s.stage = t.stage → s.current ≤ t.current

/-- Relation between consecutive splitter ranges: the next range starts right
after the previous one ends (contiguity / non-overlap / ordering). -/
def contiguousNext (a b : Nat × Nat) : Prop := b.1 = a.2 + 1

/- ---------- spec-side splitter formula (for the refinement claim) ---------- -/

/-- `clamp(x, lo, hi)` as used by the spec's splitter description. -/
def clampNat (x lo hi : Nat) : Nat := min (max x lo) hi

/-- The spec's words for the splitter heuristic, for comparison with
`pagesPerChunk`: `clamp(floor(targetChunkSizeKB / estimatedKBPerPage), 1,
totalPages)` with `estimatedKBPerPage = max(fileSizeKB / totalPages, 1)` and
`targetChunkSizeKB = 500`. -/
def specPagesPerChunk (fileSizeKB totalPages : Nat) : Nat :=
  clampNat (⌊(500 : ℚ) / max ((fileSizeKB : ℚ) / (totalPages : ℚ)) 1⌋.toNat) 1 totalPages

/- ---------- concrete environments for counterexamples and witnesses ---------- -/

/-- A 2-page convertible PDF whose pages both recognize. -/
def pdfTwoPages : FileEnv :=
  { filename := "scan.pdf", convert := .converted ["pg1", "pg2"],
    pageText := fun _ => some "text", pageDur := fun _ => 1,
    single := .ok "", singleDur := 0 }

/-- A single image upload whose recognition succeeds. -/
def imgUpload : FileEnv :=
  { filename := "scan.png", convert := .converted [], pageText := fun _ => none,
    pageDur := fun _ => 0, single := .ok "hello", singleDur := 7 }

/-- A 3-page convertible PDF where page 2's recognition invocation fails and
pages 1 and 3 succeed with non-empty text. -/
def pdfPageTwoFails : FileEnv :=
  { filename := "book.pdf", convert := .converted ["p1", "p2", "p3"],
    pageText := fun i => if i = 0 then some "alpha" else if i = 2 then some "gamma" else none,
    pageDur := fun i => if i = 0 then 10 else 1,
    single := .ok "x", singleDur := 1 }

/-- The same 3-page PDF with different page durations. -/
def pdfPageTwoFailsFast : FileEnv :=
  { pdfPageTwoFails with pageDur := fun _ => 1 }

/-- A 3-page convertible PDF on which every recognition invocation fails. -/
def pdfAllFail : FileEnv :=
  { filename := "blank.pdf", convert := .converted ["q1", "q2", "q3"],
    pageText := fun _ => none, pageDur := fun _ => 2,
    single := .ok "", singleDur := 0 }

/- ---------- general lemmas about the OCR loop ---------- -/

/-- The snapshots the page loop writes are exactly the `"OCR Processing"`
snapshots for 1-based pages `idx+1, …, idx+r`, in order. -/
lemma ocrLoop_writes (env : FileEnv) (n : Nat) :
    ∀ r idx est el acc,
      ((ocrLoop env n r idx est el acc).1).filterMap writeOf
        = (List.range' (idx + 1) r).map (fun i => ocrStatus i n) := by
  intro r
  induction r with
  | zero => intro idx est el acc; simp [ocrLoop]
  | succ r ih =>
    intro idx est el acc
    by_cases h : idx = 1 ∧ est = none
    · simp [ocrLoop, h, writeOf, ih, List.range'_succ]
    · simp [ocrLoop, h, writeOf, ih, List.range'_succ]

/-- The loop invokes tesseract exactly once per page, for 0-based pages
`idx, …, idx+r-1`, in order. -/
lemma ocrLoop_invokes (env : FileEnv) (n : Nat) :
    ∀ r idx est el acc,
      invokesOf (ocrLoop env n r idx est el acc).1 = List.range' idx r := by
  intro r
  induction r with
  | zero => intro idx est el acc; simp [ocrLoop, invokesOf]
  | succ r ih =>
    intro idx est el acc
    by_cases h : idx = 1 ∧ est = none
    · obtain ⟨rfl, rfl⟩ := h
      simp [ocrLoop, invokesOf, List.range'_succ]
      simpa [invokesOf] using ih 2 (some (el * (n : ℚ))) (el + env.pageDur 1) (accNext env 1 acc)
    · simp [ocrLoop, h, invokesOf, List.range'_succ]
      simpa [invokesOf] using ih (idx + 1) est (el + env.pageDur idx) (accNext env idx acc)

/-- Final elapsed time of the loop: the starting value plus the durations of
the pages it processed. -/
lemma ocrLoop_elapsed (env : FileEnv) (n : Nat) :
    ∀ r idx est el acc,
      (ocrLoop env n r idx est el acc).2.2
        = el + ((List.range' idx r).map env.pageDur).sum := by
  intro r
  induction r with
  | zero => intro idx est el acc; simp [ocrLoop]
  | succ r ih =>
    intro idx est el acc
    by_cases h : idx = 1 ∧ est = none
    · simp [ocrLoop, h, ih, List.range'_succ]; ring
    · simp [ocrLoop, h, ih, List.range'_succ]; ring

/-- If every page the loop still has to process yields nothing, `all_text`
is left untouched. -/
lemma ocrLoop_text_blank (env : FileEnv) (n : Nat) :
    ∀ r idx est el acc,
      (∀ i, idx ≤ i → i < idx + r → pageYieldsNothing env i = true) →
        (ocrLoop env n r idx est el acc).2.1 = acc := by
  intro r
  induction r with
  | zero => intro idx est el acc _; simp [ocrLoop]
  | succ r ih =>
    intro idx est el acc hblank
    have hacc : accNext env idx acc = acc := by
      have h0 : pageYieldsNothing env idx = true := hblank idx le_rfl (by omega)
      unfold accNext
      unfold pageYieldsNothing at h0
      cases hp : env.pageText idx with
      | none => simp
      | some t =>
        rw [hp] at h0
        simp only [beq_iff_eq] at h0
        simp [h0]
    have hrec : ∀ i, idx + 1 ≤ i → i < (idx + 1) + r → pageYieldsNothing env i = true := by
      intro i h1 h2; exact hblank i (by omega) (by omega)
    by_cases h : idx = 1 ∧ est = none
    · obtain ⟨rfl, rfl⟩ := h
      simp [ocrLoop, hacc]
      exact ih 2 (some (el * (n : ℚ))) (el + env.pageDur 1) acc hrec
    · simp [ocrLoop, h, hacc]
      exact ih (idx + 1) est (el + env.pageDur idx) acc hrec

/-- Walking the loop's events never leaves an invocation uncovered, and
returns the write/invocation balance to its starting value. -/
lemma ocrLoop_covered (env : FileEnv) (n : Nat) :
    ∀ r idx est el acc b tail,
      coveredInvokes b ((ocrLoop env n r idx est el acc).1 ++ tail)
        = coveredInvokes b tail := by
  intro r
  induction r with
  | zero => intro idx est el acc b tail; simp [ocrLoop]
  | succ r ih =>
    intro idx est el acc b tail
    by_cases h : idx = 1 ∧ est = none
    · simp [ocrLoop, h, coveredInvokes, isInvoke, isOcrWrite, ocrStatus, ih]
    · simp [ocrLoop, h, coveredInvokes, isInvoke, isOcrWrite, ocrStatus, ih]

/- ---------- lemmas about processFile and the session ---------- -/

/-- Every branch of `process_with_tesseract` labels its result with the
original filename. -/
lemma processFile_filename (env : FileEnv) : (processFile env).2.filename = env.filename := by
  unfold processFile
  by_cases hp : isPdfFile env.filename
  · rw [if_pos hp]
    cases env.convert with
    | execError e => rfl
    | toolFailure e => rfl
    | converted pages => by_cases he : pages.isEmpty <;> simp [he]
  · rw [if_neg hp]
    unfold singleImageResult
    cases env.single <;> rfl

/-- The snapshots one file's processing writes: nothing interesting beyond
three shapes — no writes is impossible here, conversion-failure branches
write only the `Converting PDF` snapshot, the non-PDF branch writes nothing,
and a successful conversion writes `Converting PDF`, `PDF Converted` and one
`OCR Processing` snapshot per page. -/
lemma fileWrites_cases (env : FileEnv) :
    fileWrites env = []
  ∨ fileWrites env = [convertingStatus env.filename]
  ∨ ∃ n, 1 ≤ n ∧ fileWrites env
      = convertingStatus env.filename :: convertedStatus n ::
          (List.range' 1 n).map (fun i => ocrStatus i n) := by
  unfold fileWrites processFile
  by_cases hp : isPdfFile env.filename
  · rw [if_pos hp]
    cases env.convert with
    | execError e => right; left; simp [writeOf]
    | toolFailure e => right; left; simp [writeOf]
    | converted pages =>
      by_cases he : pages.isEmpty
      · right; left; simp [he, writeOf]
      · right; right
        refine ⟨pages.length, ?_, ?_⟩
        · cases pages with
          | nil => simp at he
          | cons a l => simp
        · simp [he, writeOf, List.filterMap_append, ocrLoop_writes]
  · rw [if_neg hp]; left; simp [writeOf]

/-- Properties of every snapshot a file's processing writes: it is never
terminal, never labelled `Complete`, and a `Converting PDF` snapshot always
carries `current = 0`. -/
lemma fileWrites_props {env : FileEnv} {s : ProgressStatus} (hs : s ∈ fileWrites env) :
    s.complete = false ∧ s.stage ≠ "Complete" ∧ (s.stage = "Converting PDF" → s.current = 0) := by
  rcases fileWrites_cases env with h | h | ⟨n, hn, h⟩ <;> rw [h] at hs
  · simp at hs
  · simp at hs
    subst hs
    exact ⟨rfl, by simp [convertingStatus], fun _ => rfl⟩
  · simp at hs
    rcases hs with rfl | rfl | ⟨i, hi, rfl⟩
    · exact ⟨rfl, by simp [convertingStatus], fun _ => rfl⟩
    · exact ⟨rfl, by simp [convertedStatus], fun hst => absurd hst (by simp [convertedStatus])⟩
    · exact ⟨rfl, by simp [ocrStatus], fun hst => absurd hst (by simp [ocrStatus])⟩

/-- When a file writes anything at all, the first snapshot is the
`Converting PDF` one, with `current = 0`. -/
lemma fileWrites_head {env : FileEnv} {s : ProgressStatus}
    (hs : (fileWrites env).head? = some s) :
    s.stage = "Converting PDF" ∧ s.current = 0 := by
  rcases fileWrites_cases env with h | h | ⟨n, hn, h⟩ <;> rw [h] at hs <;> simp at hs <;>
    subst hs <;> exact ⟨rfl, rfl⟩

/-- The `OCR Processing` snapshots of consecutive pages have non-decreasing
(indeed increasing) `current` counters. -/
lemma ocr_map_chain (n : Nat) :
    ∀ r a, List.Chain' stageMono ((List.range' a r).map fun i => ocrStatus i n) := by
  intro r
  induction r with
  | zero => intro a; simp
  | succ r ih =>
    intro a
    cases r with
    | zero => simp [List.range'_succ]
    | succ r' =>
      rw [List.range'_succ, List.map_cons, List.range'_succ, List.map_cons, List.chain'_cons]
      constructor
      · intro _; simp [ocrStatus]
      · have h := ih (a + 1)
        rwa [List.range'_succ, List.map_cons] at h

/-- In one file's write sequence, `current` never decreases between
consecutive snapshots that share a stage label. -/
lemma fileWrites_chain (env : FileEnv) : List.Chain' stageMono (fileWrites env) := by
  rcases fileWrites_cases env with h | h | ⟨n, hn, h⟩ <;> rw [h]
  · exact List.chain'_nil
  · exact List.chain'_singleton _
  · obtain ⟨m, rfl⟩ : ∃ m, n = m + 1 := ⟨n - 1, by omega⟩
    rw [List.range'_succ, List.map_cons, List.chain'_cons, List.chain'_cons]
    refine ⟨fun hst => absurd hst (by simp [convertingStatus, convertedStatus]), ?_, ?_⟩
    · intro hst; exact absurd hst (by simp [convertedStatus, ocrStatus])
    · have h := ocr_map_chain (m + 1) (m + 1) 1
      rwa [List.range'_succ, List.map_cons] at h

/-- The progress-store writes a file performs do not depend on the page
durations. -/
lemma fileWrites_withDur (f : FileEnv) (d : Nat → ℚ) :
    fileWrites (withDur f d) = fileWrites f := by
  unfold fileWrites processFile withDur
  by_cases hp : isPdfFile f.filename
  · simp only [if_pos hp]
    cases f.convert with
    | execError e => rfl
    | toolFailure e => rfl
    | converted pages =>
      by_cases he : pages.isEmpty
      · simp [he]
      · simp [he, writeOf, List.filterMap_append, ocrLoop_writes]
  · simp [hp, writeOf]

/-- Unfolding the session fold: the events are the per-file events
concatenated in order, the results one per file in order. -/
lemma sessionRun_aux (files : List FileEnv) :
    ∀ acc : List Event × List OcrResult,
      List.foldl
          (fun acc f =>
            ((acc.1 ++ (processFile f).1, acc.2 ++ [(processFile f).2]) :
              List Event × List OcrResult))
          acc files
        = (acc.1 ++ (files.map fun f => (processFile f).1).flatten,
            acc.2 ++ files.map fun f => (processFile f).2) := by
  induction files with
  | nil => intro acc; simp
  | cons f fs ih => intro acc; simp [ih]

/-- `sessionRun` in closed form. -/
lemma sessionRun_eq (files : List FileEnv) :
    sessionRun files
      = ((files.map fun f => (processFile f).1).flatten,
          files.map fun f => (processFile f).2) := by
  have h := sessionRun_aux files ([], [])
  simpa [sessionRun] using h

/-- The terminal results are the per-validated-file results, in order. -/
lemma uploadResults_eq (parts : List FileEnv) :
    uploadResults parts = (validFiles parts).map fun f => (processFile f).2 := by
  simp [uploadResults, sessionRun_eq]

/-- The session's write sequence: the per-file write blocks in order,
followed by the single terminal `Complete` snapshot. -/
lemma uploadWrites_eq (parts : List FileEnv) :
    uploadWrites parts
      = ((validFiles parts).map fileWrites).flatten
          ++ [completeStatus (uploadResults parts)] := by
  simp [uploadWrites, uploadEvents, sessionRun_eq, List.filterMap_append,
    List.filterMap_flatten, writeOf, fileWrites, uploadResults, List.map_map]
  rfl

/- ---------- lemmas about the splitter loop ---------- -/

/-- Past the last page, the chunk loop stops immediately. -/
lemma splitLoop_nil (totalPages ppc : Nat) :
    ∀ fuel current, totalPages < current → splitLoop totalPages ppc fuel current = [] := by
  intro fuel
  cases fuel with
  | zero => intro current _; rfl
  | succ fuel => intro current h; simp [splitLoop, Nat.not_le.2 h]

/-- Loop invariant of the chunk loop, for any fuel that outlasts the
remaining pages: starting at page `current ≤ totalPages` the produced ranges
begin at `current`, are contiguous, stay inside `[current, totalPages]`, end
exactly at `totalPages`, and their lengths sum to the remaining page count. -/
lemma splitLoop_spec (totalPages ppc : Nat) (hppc : 1 ≤ ppc) :
    ∀ fuel current, 1 ≤ current → current ≤ totalPages →
      totalPages + 1 ≤ current + fuel →
      (splitLoop totalPages ppc fuel current).head?.map Prod.fst = some current
      ∧ List.Chain' contiguousNext (splitLoop totalPages ppc fuel current)
      ∧ (∀ p ∈ splitLoop totalPages ppc fuel current,
          current ≤ p.1 ∧ p.1 ≤ p.2 ∧ p.2 ≤ totalPages)
      ∧ ((splitLoop totalPages ppc fuel current).getLast?).map Prod.snd = some totalPages
      ∧ ((splitLoop totalPages ppc fuel current).map rangeLen).sum
          = totalPages + 1 - current := by
  intro fuel
  induction fuel with
  | zero => intro current h1 h2 h3; omega
  | succ fuel ih =>
    intro current h1 h2 h3
    have hend : current ≤ min (current + ppc - 1) totalPages := le_min (by omega) h2
    have hendTop : min (current + ppc - 1) totalPages ≤ totalPages := min_le_right _ _
    by_cases hlast : min (current + ppc - 1) totalPages = totalPages
    · have hnil : splitLoop totalPages ppc fuel (min (current + ppc - 1) totalPages + 1) = [] :=
        splitLoop_nil _ _ fuel _ (by omega)
      simp only [splitLoop, if_pos h2, hnil]
      refine ⟨rfl, List.chain'_singleton _, ?_, ?_, ?_⟩
      · intro p hp
        simp at hp
        subst hp
        exact ⟨le_rfl, hend, hendTop⟩
      · simp [hlast]
      · simp [rangeLen]
        omega
    · have hlt : min (current + ppc - 1) totalPages < totalPages :=
        lt_of_le_of_ne hendTop hlast
      obtain ⟨hh, hc, hm, hl, hs⟩ :=
        ih (min (current + ppc - 1) totalPages + 1) (by omega) (by omega) (by omega)
      have hne : splitLoop totalPages ppc fuel (min (current + ppc - 1) totalPages + 1) ≠ [] := by
        intro h0
        rw [h0] at hh
        simp at hh
      simp only [splitLoop, if_pos h2]
      refine ⟨rfl, ?_, ?_, ?_, ?_⟩
      · rw [List.chain'_cons']
        refine ⟨?_, hc⟩
        intro y hy
        have : (splitLoop totalPages ppc fuel
            (min (current + ppc - 1) totalPages + 1)).head?.map Prod.fst
              = some (min (current + ppc - 1) totalPages + 1) := hh
        rw [hy] at this
        simp at this
        unfold contiguousNext
        exact this
      · intro p hp
        rcases List.mem_cons.1 hp with rfl | hp
        · exact ⟨le_rfl, hend, hendTop⟩
        · obtain ⟨ha, hb, hcc⟩ := hm p hp
          exact ⟨by omega, hb, hcc⟩
      · rcases h0 : splitLoop totalPages ppc fuel (min (current + ppc - 1) totalPages + 1)
          with _ | ⟨y, l'⟩
        · exact absurd h0 hne
        · rw [List.getLast?_cons_cons]
          rw [h0] at hl
          exact hl
      · simp only [List.map_cons, List.sum_cons, hs, rangeLen]
        omega

/-- Splitting the range-length sum over kept and omitted chunks. -/
lemma sum_rangeLen_filter (ok : Nat × Nat → Bool) :
    ∀ l : List (Nat × Nat),
      ((l.filter ok).map rangeLen).sum + ((l.filter fun p => !ok p).map rangeLen).sum
        = (l.map rangeLen).sum := by
  intro l
  induction l with
  | nil => simp
  | cons p l ih => cases h : ok p <;> simp [List.filter_cons, h] <;> omega

/-- The computed `pages_per_chunk` always lands in `[1, totalPages]`. -/
lemma pagesPerChunk_bounds (fileSizeKB totalPages : Nat) (ht : 1 ≤ totalPages) :
    1 ≤ pagesPerChunk fileSizeKB totalPages ∧ pagesPerChunk fileSizeKB totalPages ≤ totalPages := by
  unfold pagesPerChunk
  constructor
  · exact le_min (le_max_right _ _) ht
  · exact min_le_right _ _

/- ---------- lemmas about processFile per branch ---------- -/

/-- The non-PDF (single image) branch performs exactly one event: the
tesseract invocation, with no store write before it. -/
lemma processFile_nonPdf {env : FileEnv} (hp : isPdfFile env.filename = false) :
    (processFile env).1 = [Event.invokeTesseract 0] := by
  simp [processFile, hp]

/-- The PDF branch invokes tesseract exactly once per discovered page, in
page order. -/
lemma processFile_pdf_invokes {env : FileEnv} (hp : isPdfFile env.filename = true) :
    invokesOf (processFile env).1 = List.range (pdfPages env) := by
  unfold processFile pdfPages
  simp only [hp, if_true]
  cases env.convert with
  | execError e => simp [invokesOf, writeOf]
  | toolFailure e => simp [invokesOf, writeOf]
  | converted pages =>
    by_cases he : pages.isEmpty
    · simp [he, invokesOf]
    · simp only [he, Bool.false_eq_true, if_false, List.filterMap_append, invokesOf]
      rw [← invokesOf, ← invokesOf, ← invokesOf, ocrLoop_invokes, List.range_eq_range']
      simp [invokesOf]

/-- The page loop publishes the `OCR Processing` counters
`idx+1, …, idx+r`, in order. -/
lemma ocrLoop_ocrCurrents (env : FileEnv) (n : Nat) :
    ∀ r idx est el acc,
      ocrCurrents (ocrLoop env n r idx est el acc).1 = List.range' (idx + 1) r := by
  intro r
  induction r with
  | zero => intro idx est el acc; simp [ocrLoop, ocrCurrents]
  | succ r ih =>
    intro idx est el acc
    by_cases h : idx = 1 ∧ est = none
    · obtain ⟨rfl, rfl⟩ := h
      simp [ocrLoop, ocrCurrents, ocrStatus, List.range'_succ]
      simpa [ocrCurrents] using ih 2 (some (el * (n : ℚ))) (el + env.pageDur 1) (accNext env 1 acc)
    · simp [ocrLoop, h, ocrCurrents, ocrStatus, List.range'_succ]
      simpa [ocrCurrents] using ih (idx + 1) est (el + env.pageDur idx) (accNext env idx acc)

/-- The PDF branch publishes the `OCR Processing` counters `1, …, n` in
order: page `i`'s progress snapshot carries `current = i`, and it is written
before page `i`'s invocation. -/
lemma processFile_pdf_ocrCurrents {env : FileEnv} (hp : isPdfFile env.filename = true) :
    ocrCurrents (processFile env).1 = List.range' 1 (pdfPages env) := by
  unfold processFile pdfPages
  simp only [hp, if_true]
  cases env.convert with
  | execError e => simp [ocrCurrents, writeOf, convertingStatus]
  | toolFailure e => simp [ocrCurrents, writeOf, convertingStatus]
  | converted pages =>
    by_cases he : pages.isEmpty
    · simp [he, ocrCurrents, convertingStatus]
    · simp only [he, Bool.false_eq_true, if_false, ocrCurrents, List.filterMap_append]
      rw [← ocrCurrents, ← ocrCurrents, ← ocrCurrents, ocrLoop_ocrCurrents]
      simp [ocrCurrents, convertingStatus, convertedStatus]

/-- In the PDF branch every tesseract invocation is preceded by strictly more
`OCR Processing` progress writes than there are earlier invocations. -/
lemma processFile_pdf_covered {env : FileEnv} (hp : isPdfFile env.filename = true) :
    coveredInvokes 0 (processFile env).1 = true := by
  unfold processFile
  simp only [hp, if_true]
  cases env.convert with
  | execError e => simp [coveredInvokes, isInvoke, isOcrWrite, convertingStatus]
  | toolFailure e => simp [coveredInvokes, isInvoke, isOcrWrite, convertingStatus]
  | converted pages =>
    by_cases he : pages.isEmpty
    · simp [he, coveredInvokes, isInvoke, isOcrWrite, convertingStatus]
    · simp only [he, Bool.false_eq_true, if_false]
      have h := ocrLoop_covered env pages.length pages.length 0 none 0 "" 0 []
      simp only [List.append_nil, coveredInvokes] at h
      simp [coveredInvokes, isInvoke, isOcrWrite, convertingStatus, convertedStatus, h]

/-- Success fields of the PDF branch when conversion finds at least one
page: the result reports success with no error, and both page counters equal
the number of converted pages — independently of the per-page outcomes. -/
lemma processFile_pdf_success {env : FileEnv} {pages : List String}
    (hp : isPdfFile env.filename = true) (hc : env.convert = .converted pages)
    (hne : pages ≠ []) :
    (processFile env).2.success = true ∧ (processFile env).2.error = none
    ∧ (processFile env).2.pages_processed = some pages.length
    ∧ (processFile env).2.total_pages = some pages.length := by
  have he : pages.isEmpty = false := by cases pages with | nil => exact absurd rfl hne | cons a l => rfl
  unfold processFile
  simp [hp, hc, he]

/-- Elapsed-time field of the PDF branch: the *actual* total duration of the
tesseract invocations, not an estimate. -/
lemma processFile_pdf_elapsed {env : FileEnv} {pages : List String}
    (hp : isPdfFile env.filename = true) (hc : env.convert = .converted pages)
    (hne : pages ≠ []) :
    (processFile env).2.estimated_time_seconds = some (totalDur env pages.length) := by
  have he : pages.isEmpty = false := by cases pages with | nil => exact absurd rfl hne | cons a l => rfl
  unfold processFile totalDur
  simp [hp, hc, he, ocrLoop_elapsed, List.range_eq_range']

/-- When every page yields nothing, the PDF branch's aggregated text is
empty. -/
lemma processFile_pdf_text_blank {env : FileEnv} {pages : List String}
    (hp : isPdfFile env.filename = true) (hc : env.convert = .converted pages)
    (hne : pages ≠ [])
    (hblank : ∀ i, i < pages.length → pageYieldsNothing env i = true) :
    (processFile env).2.text = "" := by
  have he : pages.isEmpty = false := by cases pages with | nil => exact absurd rfl hne | cons a l => rfl
  unfold processFile
  simp only [hp, if_true, hc, he, Bool.false_eq_true, if_false]
  rw [ocrLoop_text_blank env pages.length pages.length 0 none 0 ""
    (fun i _ hi => hblank i (by omega))]
  rfl

/- ---------- lemmas about the time estimate ---------- -/

/-- For a converted PDF of at least two pages, the sixth event (index 5:
after `Converting PDF`, `PDF Converted`, page 1's progress write, page 1's
invocation and page 2's progress write) is the console log of the estimate
`first-page elapsed time × total pages`, and exactly one page has been
recognized when it is computed. -/
lemma processFile_pdf_estimate {env : FileEnv} {pages : List String} {m : Nat}
    (hp : isPdfFile env.filename = true) (hc : env.convert = .converted pages)
    (hm : pages.length = m + 2) :
    ((processFile env).1)[5]? = some (Event.logEstimate (env.pageDur 0 * (pages.length : ℚ)))
    ∧ List.countP isInvoke ((processFile env).1.take 5) = 1 := by
  have hne : pages.isEmpty = false := by
    cases pages with
    | nil => simp at hm
    | cons a l => rfl
  have hm' : pages.length = (m + 1) + 1 := hm
  unfold processFile
  simp only [hp, if_true, hc, hne, Bool.false_eq_true, if_false]
  rw [hm']
  simp only [ocrLoop]
  norm_num [isInvoke, List.countP_cons, hm]

/-- The pre-terminal write sequence of a session does not depend on the page
durations (so no elapsed-time-derived estimate is ever published to the
store; durations only reach the elapsed-time fields inside the terminal
snapshot's results). -/
lemma uploadWrites_dropLast_withDur (parts : List FileEnv) (d : Nat → ℚ) :
    (uploadWrites (parts.map fun f => withDur f d)).dropLast
      = (uploadWrites parts).dropLast := by
  rw [uploadWrites_eq, uploadWrites_eq, List.dropLast_concat, List.dropLast_concat]
  have hv : validFiles (parts.map fun f => withDur f d)
      = (validFiles parts).map fun f => withDur f d := by
    unfold validFiles
    rw [List.filter_map]
    congr 1
  rw [hv, List.map_map]
  congr 1
  apply List.map_congr_left
  intro f _
  exact fileWrites_withDur f d

/-- Chain and boundary facts for the concatenation of all files' write
blocks: stage-wise monotonicity holds across the whole pre-terminal write
sequence, no pre-terminal snapshot is labelled `Complete`, `Converting PDF`
snapshots always carry `current = 0`, and the first write (if any) is a
`Converting PDF` one. -/
lemma flatten_fileWrites_facts (files : List FileEnv) :
    List.Chain' stageMono ((files.map fileWrites).flatten)
    ∧ (∀ s ∈ (files.map fileWrites).flatten,
        s.stage ≠ "Complete" ∧ (s.stage = "Converting PDF" → s.current = 0))
    ∧ (∀ s, ((files.map fileWrites).flatten).head? = some s →
        s.stage = "Converting PDF" ∧ s.current = 0) := by
  induction files with
  | nil => simp
  | cons f fs ih =>
    obtain ⟨ih1, ih2, ih3⟩ := ih
    rw [List.map_cons, List.flatten_cons]
    refine ⟨?_, ?_, ?_⟩
    · refine List.Chain'.append (fileWrites_chain f) ih1 ?_
      intro x hx y hy
      have hxm : x ∈ fileWrites f := List.mem_of_mem_getLast? hx
      have hy' := ih3 y hy
      intro hst
      have hx0 : x.current = 0 := (fileWrites_props hxm).2.2 (by rw [hst, hy'.1])
      omega
    · intro s hs
      rcases List.mem_append.1 hs with hs | hs
      · exact ⟨(fileWrites_props hs).2.1, (fileWrites_props hs).2.2⟩
      · exact ih2 s hs
    · intro s hs
      cases hfw : fileWrites f with
      | nil =>
        rw [hfw] at hs
        simp only [List.nil_append] at hs
        exact ih3 s hs
      | cons a l =>
        rw [hfw] at hs
        simp only [List.cons_append, List.head?_cons, Option.some.injEq] at hs
        subst hs
        exact fileWrites_head (by rw [hfw]; rfl)

/- ==================== the claims ==================== -/

/-- C1: for every session, once a `ProgressStatus` with `complete = true` has
been written to the progress store for that session id, no further write to
that session id ever occurs — formally, any write in the session's write
sequence whose `complete` flag is `true` is the last write of the sequence
(so every later status read returns that same terminal snapshot). -/
theorem c1_complete_write_is_final (parts : List FileEnv) (i : Nat)
    (hc : ((uploadWrites parts)[i]?).map ProgressStatus.complete = some true) :
    i + 1 = (uploadWrites parts).length := by
  rw [uploadWrites_eq] at hc ⊢
  obtain ⟨s, hs, hcomp⟩ := Option.map_eq_some'.1 hc
  by_cases hi : i < (((validFiles parts).map fileWrites).flatten).length
  · rw [List.getElem?_append_left hi] at hs
    have hmem := List.getElem?_mem hs
    rcases List.mem_flatten.1 hmem with ⟨block, hb, hsb⟩
    rcases List.mem_map.1 hb with ⟨f, hf, rfl⟩
    have hfalse := (fileWrites_props hsb).1
    rw [hfalse] at hcomp
    simp at hcomp
  · push_neg at hi
    rw [List.getElem?_append_right hi] at hs
    have hlen := (List.getElem?_eq_some.1 hs).1
    simp only [List.length_cons, List.length_nil] at hlen
    have hieq : i = (((validFiles parts).map fileWrites).flatten).length := by omega
    simp [List.length_append, hieq]

/-- Witness for C1: with an empty upload batch the session's only write is
the terminal one, at index 0, and it is indeed the final write. -/
theorem c1_witness :
    ((uploadWrites ([] : List FileEnv))[0]?).map ProgressStatus.complete = some true
    ∧ 0 + 1 = (uploadWrites ([] : List FileEnv)).length :=
  ⟨by decide, c1_complete_write_is_final [] 0 (by decide)⟩

/-- C2: for every accepted upload batch, the terminal `Complete` snapshot is
the last write and contains exactly one `OcrResult` per artifact that passed
extension validation, in the order the artifacts were received (each result
is that artifact's `processFile` output and carries its filename). -/
theorem c2_terminal_results_one_per_validated_file (parts : List FileEnv) :
    (uploadWrites parts).getLast? = some (completeStatus (uploadResults parts))
    ∧ uploadResults parts = (validFiles parts).map (fun f => (processFile f).2)
    ∧ (uploadResults parts).length = (validFiles parts).length
    ∧ (uploadResults parts).map OcrResult.filename = (validFiles parts).map FileEnv.filename := by
  refine ⟨?_, uploadResults_eq parts, ?_, ?_⟩
  · rw [uploadWrites_eq]
    exact List.getLast?_concat _
  · rw [uploadResults_eq, List.length_map]
  · rw [uploadResults_eq, List.map_map]
    apply List.map_congr_left
    intro f _
    exact processFile_filename f

/-- C3 counterexample: for a 2-page convertible PDF, the second write
(`PDF Converted`) publishes `current = 2` while the third write (the first
`OCR Processing` snapshot) publishes `current = 1` — a strict decrease —
and both occur before the terminal write (index 4 of 5).  So the
pre-terminal `current` sequence is *not* monotonically non-decreasing. -/
theorem c3_counterexample :
    ((uploadWrites [pdfTwoPages])[1]?).map ProgressStatus.current = some 2
    ∧ ((uploadWrites [pdfTwoPages])[2]?).map ProgressStatus.current = some 1
    ∧ ((uploadWrites [pdfTwoPages])[2]?).map ProgressStatus.complete = some false
    ∧ ((uploadWrites [pdfTwoPages])[4]?).map ProgressStatus.complete = some true
    ∧ (uploadWrites [pdfTwoPages]).length = 5 := by
  refine ⟨by decide, by decide, by decide, by decide, by decide⟩

/-- C3 amended: `current` can decrease across a stage change (`PDF
Converted` republishes the page total before `OCR Processing` restarts the
counter at 1), but between consecutive snapshots that carry the *same* stage
label, `current` never decreases. -/
theorem c3_amended_stagewise_monotone (parts : List FileEnv) :
    List.Chain' stageMono (uploadWrites parts) := by
  rw [uploadWrites_eq]
  obtain ⟨h1, h2, _⟩ := flatten_fileWrites_facts (validFiles parts)
  refine List.Chain'.append h1 (List.chain'_singleton _) ?_
  intro x hx y hy
  have hxm := List.mem_of_mem_getLast? hx
  simp only [List.head?_cons, Option.mem_def, Option.some.injEq] at hy
  subst hy
  intro hst
  exact absurd hst ((h2 x hxm).1)

/-- C4 counterexample: a single-image upload whose recognition succeeds
produces exactly two events — the tesseract invocation, then the terminal
write.  No progress update is written to the store before the invocation,
and in particular there is no one-shot `Recognizing` stage. -/
theorem c4_counterexample :
    uploadEvents [imgUpload]
      = [Event.invokeTesseract 0, Event.write (completeStatus [singleImageResult imgUpload])]
    ∧ (singleImageResult imgUpload).success = true := by
  refine ⟨by decide, by decide⟩

/-- C4 amended: for every page of a converted multi-page PDF, an
`OCR Processing` progress update is written to the store before the
recognition worker is invoked for that page (every trace prefix holds at
least as many `OCR Processing` writes as invocations, the invocations are
pages `0, …, n-1` in order and the published counters are `1, …, n` in
order); a non-PDF (single image) input, by contrast, invokes tesseract with
no prior store write at all. -/
theorem c4_amended_progress_before_invocation (env : FileEnv) :
    (isPdfFile env.filename = false → (processFile env).1 = [Event.invokeTesseract 0])
    ∧ (isPdfFile env.filename = true →
        coveredInvokes 0 (processFile env).1 = true
        ∧ invokesOf (processFile env).1 = List.range (pdfPages env)
        ∧ ocrCurrents (processFile env).1 = List.range' 1 (pdfPages env)) :=
  ⟨fun hp => processFile_nonPdf hp,
   fun hp => ⟨processFile_pdf_covered hp, processFile_pdf_invokes hp,
     processFile_pdf_ocrCurrents hp⟩⟩

/-- Witness for C4 (amended): on a concrete 2-page PDF the PDF-branch
conclusion holds. -/
theorem c4_witness :
    isPdfFile pdfTwoPages.filename = true
    ∧ (coveredInvokes 0 (processFile pdfTwoPages).1 = true
       ∧ invokesOf (processFile pdfTwoPages).1 = List.range (pdfPages pdfTwoPages)
       ∧ ocrCurrents (processFile pdfTwoPages).1 = List.range' 1 (pdfPages pdfTwoPages)) :=
  ⟨by decide, (c4_amended_progress_before_invocation pdfTwoPages).2 (by decide)⟩

/-- C5 counterexample: for a concrete 3-page PDF, the single console
estimate log (event index 5) happens when exactly *one* invocation — not
two pages — has completed, and every pre-terminal store snapshot is
identical to the one written under different page durations: nothing
derived from elapsed time is ever published to the polling client. -/
theorem c5_counterexample :
    ((uploadEvents [pdfPageTwoFails])[5]?).map isLogEstimate = some true
    ∧ List.countP isInvoke ((uploadEvents [pdfPageTwoFails]).take 5) = 1
    ∧ List.countP isLogEstimate (uploadEvents [pdfPageTwoFails]) = 1
    ∧ (uploadWrites [pdfPageTwoFails]).dropLast = (uploadWrites [pdfPageTwoFailsFast]).dropLast := by
  refine ⟨by decide, by decide, by decide, by decide⟩

/-- C5 amended: for every multi-page artifact (≥ 2 pages), at the start of
the second page's iteration — after exactly one page has been recognized —
the orchestrator computes the estimate `elapsed-so-far × total page count`
and logs it to the console only (event index 5 of the file's trace); the
pre-terminal store writes are independent of the page durations, and the
elapsed-time field eventually published in the terminal result is the
*actual* total duration, not the estimate. -/
theorem c5_amended_estimate_logged_not_published (env : FileEnv) (pages : List String)
    (m : Nat) (parts : List FileEnv) (d : Nat → ℚ)
    (hp : isPdfFile env.filename = true) (hc : env.convert = .converted pages)
    (hm : pages.length = m + 2) :
    ((processFile env).1)[5]? = some (Event.logEstimate (env.pageDur 0 * (pages.length : ℚ)))
    ∧ List.countP isInvoke ((processFile env).1.take 5) = 1
    ∧ (uploadWrites (parts.map fun f => withDur f d)).dropLast = (uploadWrites parts).dropLast
    ∧ (processFile env).2.estimated_time_seconds = some (totalDur env pages.length) := by
  obtain ⟨h1, h2⟩ := processFile_pdf_estimate hp hc hm
  have hne : pages ≠ [] := by
    intro h0
    rw [h0] at hm
    simp at hm
  exact ⟨h1, h2, uploadWrites_dropLast_withDur parts d, processFile_pdf_elapsed hp hc hne⟩

/-- Witness for C5 (amended): the concrete 3-page PDF satisfies the
hypotheses, and its sixth event is the estimate log. -/
theorem c5_witness :
    isPdfFile pdfPageTwoFails.filename = true
    ∧ pdfPageTwoFails.convert = ConvertOutcome.converted ["p1", "p2", "p3"]
    ∧ (["p1", "p2", "p3"] : List String).length = 1 + 2
    ∧ ((processFile pdfPageTwoFails).1)[5]?
        = some (Event.logEstimate
            (pdfPageTwoFails.pageDur 0 * ((["p1", "p2", "p3"] : List String).length : ℚ))) :=
  ⟨by decide, rfl, by decide,
   (c5_amended_estimate_logged_not_published pdfPageTwoFails ["p1", "p2", "p3"] 1 [] (fun _ => 0)
     (by decide) rfl (by decide)).1⟩

/-- C6: uploading one 3-page convertible PDF where page 2's recognition
invocation fails while pages 1 and 3 succeed with non-empty text yields a
single result with `success = true`, `pages_processed = 3`, no error, and a
text containing the page-1 and page-3 markers but no page-2 marker. -/
theorem c6_page_two_failure_scenario :
    (processFile pdfPageTwoFails).2.success = true
    ∧ (processFile pdfPageTwoFails).2.pages_processed = some 3
    ∧ (processFile pdfPageTwoFails).2.error = none
    ∧ strHas (processFile pdfPageTwoFails).2.text "Page 1" = true
    ∧ strHas (processFile pdfPageTwoFails).2.text "Page 3" = true
    ∧ strHas (processFile pdfPageTwoFails).2.text "Page 2" = false := by
  refine ⟨by decide, by decide, by decide, by decide, by decide, by decide⟩

/-- C7: for every split (with the splitter's computed chunk size), the
generated ranges are 1-indexed, start at page 1, are contiguous,
non-overlapping and ordered, stay within `[1, totalPages]`, end exactly at
`totalPages`, and the pages of the successfully materialized chunks are
exactly `totalPages` minus the pages of the omitted (failed) chunks. -/
theorem c7_split_ranges_partition (fileSizeKB totalPages : Nat) (ht : 1 ≤ totalPages)
    (ok : Nat × Nat → Bool) :
    (splitRanges totalPages (pagesPerChunk fileSizeKB totalPages)).head?.map Prod.fst = some 1
    ∧ List.Chain' contiguousNext (splitRanges totalPages (pagesPerChunk fileSizeKB totalPages))
    ∧ (∀ p ∈ splitRanges totalPages (pagesPerChunk fileSizeKB totalPages),
        1 ≤ p.1 ∧ p.1 ≤ p.2 ∧ p.2 ≤ totalPages)
    ∧ (splitRanges totalPages (pagesPerChunk fileSizeKB totalPages)).getLast?.map Prod.snd
        = some totalPages
    ∧ ((splitChunks totalPages (pagesPerChunk fileSizeKB totalPages) ok).map rangeLen).sum
        = totalPages
          - (((splitRanges totalPages (pagesPerChunk fileSizeKB totalPages)).filter
              (fun p => !(ok p))).map rangeLen).sum := by
  have hppc := (pagesPerChunk_bounds fileSizeKB totalPages ht).1
  obtain ⟨h1, h2, h3, h4, h5⟩ :=
    splitLoop_spec totalPages (pagesPerChunk fileSizeKB totalPages) hppc totalPages 1
      le_rfl ht (by omega)
  refine ⟨h1, h2, h3, h4, ?_⟩
  have hsum := sum_rangeLen_filter ok (splitRanges totalPages (pagesPerChunk fileSizeKB totalPages))
  have h5' : ((splitRanges totalPages (pagesPerChunk fileSizeKB totalPages)).map rangeLen).sum
      = totalPages := by
    unfold splitRanges
    rw [h5]
    omega
  unfold splitChunks
  omega

/-- Witness for C7: a concrete 3-page split where the first chunk fails to
materialize. -/
theorem c7_witness :
    1 ≤ 3
    ∧ ((splitChunks 3 (pagesPerChunk 100 3) (fun p => decide (1 < p.1))).map rangeLen).sum
        = 3 - (((splitRanges 3 (pagesPerChunk 100 3)).filter
            (fun p => !(decide (1 < p.1)))).map rangeLen).sum :=
  ⟨by decide, (c7_split_ranges_partition 100 3 (by decide) (fun p => decide (1 < p.1))).2.2.2.2⟩

/-- C8: the splitter's `pages_per_chunk` equals the spec's
`clamp(floor(500 / estimatedKBPerPage), 1, totalPages)` with
`estimatedKBPerPage = max(fileSizeKB / totalPages, 1)`, and for every
positive file size and page count it lies in `[1, totalPages]`; in
particular a 1-page file of any size yields exactly one chunk. -/
theorem c8_pages_per_chunk_clamped (fileSizeKB totalPages : Nat)
    (hf : 1 ≤ fileSizeKB) (ht : 1 ≤ totalPages) :
    pagesPerChunk fileSizeKB totalPages = specPagesPerChunk fileSizeKB totalPages
    ∧ 1 ≤ pagesPerChunk fileSizeKB totalPages
    ∧ pagesPerChunk fileSizeKB totalPages ≤ totalPages
    ∧ splitRanges 1 (pagesPerChunk fileSizeKB 1) = [(1, 1)] := by
  obtain ⟨hlo, hhi⟩ := pagesPerChunk_bounds fileSizeKB totalPages ht
  refine ⟨rfl, hlo, hhi, ?_⟩
  obtain ⟨hlo1, hhi1⟩ := pagesPerChunk_bounds fileSizeKB 1 le_rfl
  have h1 : pagesPerChunk fileSizeKB 1 = 1 := le_antisymm hhi1 hlo1
  rw [h1]
  decide

/-- Witness for C8: concrete 1024 KB, 5 pages. -/
theorem c8_witness :
    1 ≤ 1024 ∧ 1 ≤ 5
    ∧ pagesPerChunk 1024 5 = specPagesPerChunk 1024 5
    ∧ 1 ≤ pagesPerChunk 1024 5
    ∧ pagesPerChunk 1024 5 ≤ 5 :=
  ⟨by decide, by decide, (c8_pages_per_chunk_clamped 1024 5 (by decide) (by decide)).1,
   (c8_pages_per_chunk_clamped 1024 5 (by decide) (by decide)).2.1,
   (c8_pages_per_chunk_clamped 1024 5 (by decide) (by decide)).2.2.1⟩

/-- C9 counterexample: a 1203-page, 12 MB PDF does *not* give
`pages_per_chunk = 49` under any reading of "12 MB": 12 MiB = 12288 KB
gives 48 (and then 26 chunks with last chunk `1201-1203`, not 25 with
`1177-1203`), 12·10³ KB gives 50, and 12·10⁶ bytes = 11718 KB gives 51. -/
theorem c9_counterexample :
    pagesPerChunk 12288 1203 = 48
    ∧ pagesPerChunk 12000 1203 = 50
    ∧ pagesPerChunk 11718 1203 = 51
    ∧ (splitRanges 1203 48).length = 26
    ∧ (splitRanges 1203 48).getLast? = some (1201, 1203) := by
  have h1 : pagesPerChunk 12288 1203 = 48 := by
    unfold pagesPerChunk estimatedKBPerPage
    rw [max_eq_left (by norm_num)]
    norm_num
    decide
  have h2 : pagesPerChunk 12000 1203 = 50 := by
    unfold pagesPerChunk estimatedKBPerPage
    rw [max_eq_left (by norm_num)]
    norm_num
    decide
  have h3 : pagesPerChunk 11718 1203 = 51 := by
    unfold pagesPerChunk estimatedKBPerPage
    rw [max_eq_left (by norm_num)]
    norm_num
    decide
  exact ⟨h1, h2, h3, by decide, by decide⟩

/-- C9 amended: splitting a 1203-page, 12 MiB (12288 KB) PDF yields
`estimated_kb_per_page = 12288/1203 = 4096/401 ≈ 10.21`,
`pages_per_chunk = 48`, 26 chunks starting with pages `1-48`, and a last
chunk covering pages `1201-1203` (3 pages). -/
theorem c9_amended_split_1203_pages :
    estimatedKBPerPage 12288 1203 = 4096 / 401
    ∧ pagesPerChunk 12288 1203 = 48
    ∧ (splitRanges 1203 (pagesPerChunk 12288 1203)).length = 26
    ∧ (splitRanges 1203 (pagesPerChunk 12288 1203)).head? = some (1, 48)
    ∧ (splitRanges 1203 (pagesPerChunk 12288 1203)).getLast? = some (1201, 1203)
    ∧ rangeLen (1201, 1203) = 3 := by
  have h1 : pagesPerChunk 12288 1203 = 48 := by
    unfold pagesPerChunk estimatedKBPerPage
    rw [max_eq_left (by norm_num)]
    norm_num
    decide
  refine ⟨?_, h1, ?_, ?_, ?_, by decide⟩
  · unfold estimatedKBPerPage
    rw [max_eq_left (by norm_num)]
    norm_num
  · rw [h1]; decide
  · rw [h1]; decide
  · rw [h1]; decide

/-- C10: whenever PDF conversion yields at least one page image, the emitted
result reports `success = true` with no error and
`pages_processed = total_pages = ` the page count, regardless of the
per-page recognition outcomes — and if every page fails or yields only
whitespace, the text is simply empty. -/
theorem c10_pdf_success_independent_of_pages (env : FileEnv) (pages : List String)
    (hp : isPdfFile env.filename = true) (hc : env.convert = .converted pages)
    (hne : pages ≠ []) :
    (processFile env).2.success = true
    ∧ (processFile env).2.error = none
    ∧ (processFile env).2.pages_processed = some pages.length
    ∧ (processFile env).2.total_pages = some pages.length
    ∧ ((∀ i, i < pages.length → pageYieldsNothing env i = true) →
        (processFile env).2.text = "") := by
  obtain ⟨h1, h2, h3, h4⟩ := processFile_pdf_success hp hc hne
  exact ⟨h1, h2, h3, h4, fun hb => processFile_pdf_text_blank hp hc hne hb⟩

/-- Witness for C10: a 3-page PDF on which every recognition invocation
fails still reports success, with empty text. -/
theorem c10_witness :
    isPdfFile pdfAllFail.filename = true
    ∧ pdfAllFail.convert = ConvertOutcome.converted ["q1", "q2", "q3"]
    ∧ (["q1", "q2", "q3"] : List String) ≠ []
    ∧ (processFile pdfAllFail).2.success = true
    ∧ (processFile pdfAllFail).2.text = "" :=
  ⟨by decide, rfl, by decide,
   (c10_pdf_success_independent_of_pages pdfAllFail ["q1", "q2", "q3"]
     (by decide) rfl (by decide)).1,
   (c10_pdf_success_independent_of_pages pdfAllFail ["q1", "q2", "q3"]
     (by decide) rfl (by decide)).2.2.2.2 (by decide)⟩

end SanskritOcr
